import Mathlib

/-!
Shallow embedding of the OTP retrieval engine of bytevault-otp-hub
(src/server/otp-email.ts and src/server/totp.ts), together with proofs
about its rate limiter, account failover loop, mailbox session handling,
sender-filter resolution, candidate extraction and confidence scoring.

Modelling conventions:
 - JavaScript strings are modelled as Lean String where only equality and
   concatenation matter, and as List Char where character-level scanning
   (substring search, trimming, splitting, lowercasing) matters.
 - Date.now() timestamps are Nat milliseconds.
 - Fallible external operations (database lookups, IMAP calls, message
   parsing) are oracle inputs to the embedded control flow; the embedded
   functions reproduce the branching of the source on those inputs.
-/

namespace ByteVault

/-! ## Rate limiter (src/server/otp-email.ts lines 13-34) -/

/-- RATE_LIMIT = 10 requests per minute (line 15). -/
def RATE_LIMIT : Nat := 10

/-- RATE_WINDOW = 60 * 1000 milliseconds (line 16). -/
def RATE_WINDOW : Nat := 60 * 1000

/-- One value of the rateLimitStore map: { count, resetTime } (line 14). -/
structure RateEntry where
  count : Nat
  resetTime : Nat
deriving DecidableEq, Repr

/-- The in-memory rateLimitStore, as a partial map from key strings. -/
def RateStore : Type := String → Option RateEntry

/-- The key built by checkRateLimit (line 19). -/
def rlKey (userId productId : String) : String :=
  userId ++ ":" ++ productId

/-- Map update for the store, mirroring rateLimitStore.set / in-place
mutation of an entry. -/
def storeSet (s : RateStore) (key : String) (e : RateEntry) : RateStore :=
  fun k => if k = key then some e else s k

/-- checkRateLimit (lines 18-34): if there is no entry for the key, or the
entry's window has elapsed (now > resetTime), install a fresh entry with
count 1 and return allowed; otherwise if count >= RATE_LIMIT return denied
without touching the store; otherwise increment count (resetTime kept) and
return allowed.  The Bool is the return value, the second component the
store after the call. -/
def checkRateLimit (s : RateStore) (userId productId : String) (now : Nat) :
    Bool × RateStore :=
  match s (rlKey userId productId) with
  | none => (true, storeSet s (rlKey userId productId) ⟨1, now + RATE_WINDOW⟩)
  | some e =>
    if e.resetTime < now then
      (true, storeSet s (rlKey userId productId) ⟨1, now + RATE_WINDOW⟩)
    else if RATE_LIMIT ≤ e.count then
      (false, s)
    else
      (true, storeSet s (rlKey userId productId) ⟨e.count + 1, e.resetTime⟩)

/-- A sequence of checkRateLimit calls for one (user, product) at the given
times; returns how many were allowed and the final store. -/
def runCalls (u p : String) : RateStore → List Nat → Nat × RateStore
  | s, [] => (0, s)
  | s, t :: ts =>
    let r := checkRateLimit s u p t
    let rest := runCalls u p r.2 ts
    ((if r.1 then 1 else 0) + rest.1, rest.2)

/-- The rate-limit gate of POST /get-otp/:slug (line 116): the email
endpoint calls checkRateLimit(userId, slug). -/
def emailRateCheck (s : RateStore) (userId slug : String) (now : Nat) :
    Bool × RateStore :=
  checkRateLimit s userId slug now

/-- The rate-limit gate of POST /get-totp/:slug (line 502): the TOTP
endpoint calls checkRateLimit(userId, slug) on the same store. -/
def totpRateCheck (s : RateStore) (userId slug : String) (now : Nat) :
    Bool × RateStore :=
  checkRateLimit s userId slug now

/-- Which endpoint a request hits. -/
inductive Endpoint where
  | email
  | totp
deriving DecidableEq, Repr

/-- An interleaved sequence of requests to both endpoints for one
(user, slug), each going through its own endpoint's rate gate; returns the
number of admitted requests. -/
def runMixed (u slug : String) : RateStore → List (Endpoint × Nat) → Nat
  | _, [] => 0
  | s, (e, t) :: rest =>
    let r := match e with
      | .email => emailRateCheck s u slug t
      | .totp => totpRateCheck s u slug t
    (if r.1 then 1 else 0) + runMixed u slug r.2 rest

/-! ## Character-level string operations (JavaScript semantics)

JS strings are modelled as List Char; String.prototype.includes,
indexOf, trim, split and toLowerCase are reproduced below (code points
standing in for UTF-16 units, ASCII case folding standing in for the
Unicode one; the texts in the claims are ASCII). -/

/-- JS s.includes(sub): sub occurs contiguously in s. -/
def containsSub (hay needle : List Char) : Bool :=
  hay.tails.any (fun t => needle.isPrefixOf t)

/-- Helper for indexOf: first index at or after i where needle starts. -/
def indexOfAux (needle : List Char) : List Char → Nat → Option Nat
  | [], i => if needle.isEmpty then some i else none
  | c :: t, i =>
    if needle.isPrefixOf (c :: t) then some i else indexOfAux needle t (i + 1)

/-- JS s.indexOf(sub), with none standing for -1. -/
def strIndexOf (hay needle : List Char) : Option Nat :=
  indexOfAux needle hay 0

/-- JS s.toLowerCase() (ASCII fragment). -/
def lowerChars (l : List Char) : List Char :=
  l.map Char.toLower

/-- JS s.trim(): strip leading and trailing whitespace. -/
def trimChars (l : List Char) : List Char :=
  ((l.dropWhile Char.isWhitespace).reverse.dropWhile Char.isWhitespace).reverse

/-- JS s.split(','): split at every comma; the empty string yields [""]. -/
def splitComma : List Char → List (List Char)
  | [] => [[]]
  | c :: t =>
    if c = ',' then [] :: splitComma t
    else
      match splitComma t with
      | h :: r => (c :: h) :: r
      | [] => [[c]]

/-! ## Sender filter resolution (src/server/otp-email.ts lines 54-68) -/

/-- filter.split(',').map(s => s.trim()) for one filter value (line 64). -/
def parseSenderEntries (l : List Char) : List (List Char) :=
  (splitComma l).map trimChars

/-- The senderWhitelist computation of getAdvancedFilterConfig
(lines 58-65): take senderOverride = account.sender_override || '' and
fetchFromFilter = account.fetch_from_filter || '', then
[senderOverride, fetchFromFilter].filter(Boolean)
  .flatMap(f => f.split(',').map(s => s.trim())).filter(Boolean). -/
def senderWhitelistOf (senderOverride fetchFromFilter : Option (List Char)) :
    List (List Char) :=
  let ovr := senderOverride.getD []
  let fff := fetchFromFilter.getD []
  ((([ovr, fff].filter (fun f => !f.isEmpty)).flatMap parseSenderEntries).filter
    (fun x => !x.isEmpty))

/-- Modelled from the spec, for comparison with senderWhitelistOf only
(spec 4.2 step 1: resolve effective sender filter = mapping override,
else account default): when the mapping override is present and non-empty
the effective filter is the parsed override alone, otherwise the parsed
account default alone. -/
def senderWhitelistSpec (senderOverride fetchFromFilter : Option (List Char)) :
    List (List Char) :=
  let ovr := senderOverride.getD []
  if !ovr.isEmpty then (parseSenderEntries ovr).filter (fun x => !x.isEmpty)
  else (parseSenderEntries (fetchFromFilter.getD [])).filter (fun x => !x.isEmpty)

/-! ## OTP pattern loop selection (src/server/otp-email.ts lines 356-392)

The loop runs the configured patterns in order over the truncated search
text; regex matching itself is abstracted: the input is the list, per
pattern in order, of the candidate strings that pattern's global match
yields on the message (capture group when the pattern defines one, else
the whole match).  The loop body keeps the first pattern with at least one
match: bestMatch = matches[0] when the subject is OTP-related, else
matches[matches.length - 1], and then breaks. -/

/-- The candidate selected by the pattern loop (lines 360-392):
the first pattern with matches decides, taking its first match when
isOtpRelated and its last match otherwise. -/
def extractLoopPick : List (List String) → Bool → Option String
  | [], _ => none
  | [] :: rest, rel => extractLoopPick rest rel
  | (m :: ms) :: _, rel =>
    some (if rel then m else (m :: ms).getLast (List.cons_ne_nil m ms))

/-- The candidates the loop ever materialises: the matches of the first
pattern with at least one match (the break on line 386 prevents later
patterns from running). -/
def extractLoopRecorded : List (List String) → List String
  | [] => []
  | [] :: rest => extractLoopRecorded rest
  | (m :: ms) :: _ => m :: ms

/-- Modelled from the spec, for comparison with extractLoopRecorded only
(spec 4.5: for each pattern in order, run a global match; record every
match): all matches of all patterns. -/
def extractSpecRecorded (pats : List (List String)) : List String :=
  pats.flatten

/-- Modelled from the spec, for comparison with extractLoopPick only
(spec 4.6: prefer the first candidate when subject-relevant, else the
last): first or last among all recorded candidates. -/
def extractSpecPick (pats : List (List String)) (rel : Bool) : Option String :=
  if rel then (extractSpecRecorded pats).head? else (extractSpecRecorded pats).getLast?

/-! ## Message fetch loop (src/server/otp-email.ts lines 290-459)

messagesToFetch is the full search result (line 291); the loop iterates
messagesToFetch.reverse() (line 302) and per message either skips it
(no source, filtered out, no / low-confidence candidate), accepts a
candidate and returns, or throws, which aborts the whole loop via the
catch on line 452.  EMAIL_FETCH_LIMIT (line 198) is parsed and logged but
never used to bound the loop. -/

/-- EMAIL_FETCH_LIMIT default: parseInt(process.env.EMAIL_FETCH_LIMIT || '20'). -/
def EMAIL_FETCH_LIMIT : Nat := 20

/-- What processing one fetched message does to the loop. -/
inductive MsgStep where
  | skip
  | accept (otp : String)
  | err
deriving DecidableEq, Repr

/-- The uids fetched, in order, by the for-of loop of lines 302-451 given
the per-uid outcome: skip continues, accept returns out of the loop, a
throw aborts the loop (caught on line 452). -/
def fetchLoop (eval : Nat → MsgStep) : List Nat → List Nat
  | [] => []
  | uid :: rest =>
    match eval uid with
    | .skip => uid :: fetchLoop eval rest
    | .accept _ => [uid]
    | .err => [uid]

/-- The fetch pass over one account's search result: iterate the reversed
uid list (line 302). -/
def emailFetchRun (eval : Nat → MsgStep) (messages : List Nat) : List Nat :=
  fetchLoop eval messages.reverse

/-! ## Confidence scorer (src/server/otp-email.ts lines 394-420) -/

/-- The fixed blacklist of common sequences (line 402). -/
def trivialSequences : List String :=
  ["123456", "654321", "123123", "000000", "111111", "222222"]

/-- The regex (\d)\1{5} of line 400: some position starts a run of six
equal digit characters. -/
def hasRepeatedDigitRun (l : List Char) : Bool :=
  l.tails.any (fun t =>
    match t with
    | c :: rest => c.isDigit && (rest.take 5 == List.replicate 5 c)
    | [] => false)

/-- isTrivialOTP (lines 398-404): a repeated-digit run or a member of the
fixed sequence blacklist. -/
def isTrivialOTP (otp : List Char) : Bool :=
  hasRepeatedDigitRun otp || (trivialSequences.map String.toList).contains otp

/-- senderWhitelisted (line 408): senderWhitelist.length > 0 &&
senderWhitelist.some(allowed => fromAddress.includes(allowed)). -/
def senderWhitelistedB (wl : List (List Char)) (fromAddress : List Char) : Bool :=
  decide (0 < wl.length) && wl.any (fun a => containsSub fromAddress a)

/-- The subjectFilters keyword list (lines 92-95). -/
def subjectFilters : List String :=
  ["verification", "code", "otp", "authenticate", "login", "signin",
   "security", "access", "confirm", "activate", "reset"]

/-- isOtpRelated (lines 342-343): the lowercased subject contains one of
the subjectFilters keywords. -/
def isOtpRelatedB (subject : List Char) : Bool :=
  (subjectFilters.map String.toList).any
    (fun f => containsSub (lowerChars subject) f)

/-- ASCII whitespace matched by the regex class \s. -/
def jsWhitespace : List Char := [' ', '\t', '\n', '\r', '\x0b', '\x0c']

/-- The alternation sign\s?in of the context regex. -/
def hasSignIn (l : List Char) : Bool :=
  containsSub l "signin".toList ||
    jsWhitespace.any (fun c => containsSub l ("sign".toList ++ [c] ++ "in".toList))

/-- The alternation two[-\s]?factor of the context regex. -/
def hasTwoFactor (l : List Char) : Bool :=
  containsSub l "twofactor".toList ||
    containsSub l "two-factor".toList ||
    jsWhitespace.any (fun c => containsSub l ("two".toList ++ [c] ++ "factor".toList))

/-- The case-insensitive context regex of line 415:
(otp|code|verify|verification|login|sign\s?in|two[-\s]?factor|authentication|passcode). -/
def contextRegexTest (l : List Char) : Bool :=
  let w := lowerChars l
  containsSub w "otp".toList || containsSub w "code".toList ||
    containsSub w "verify".toList || containsSub w "verification".toList ||
    containsSub w "login".toList || hasSignIn w || hasTwoFactor w ||
    containsSub w "authentication".toList || containsSub w "passcode".toList

/-- The context window of lines 411-414: otpIndex = searchText.indexOf(foundOtp)
(with -1 when absent), contextStart = max(0, otpIndex - 60),
contextEnd = min(searchText.length, otpIndex + foundOtp.length + 60),
window = searchText.substring(contextStart, contextEnd). -/
def contextWindow (searchText foundOtp : List Char) : List Char :=
  let otpIndex : Int :=
    match strIndexOf searchText foundOtp with
    | some i => (i : Int)
    | none => -1
  let contextStart : Int := max 0 (otpIndex - 60)
  let contextEnd : Int :=
    min (searchText.length : Int) (otpIndex + (foundOtp.length : Int) + 60)
  (searchText.drop contextStart.toNat).take (contextEnd - contextStart).toNat

/-- hasContextNearMatch (line 415): the context regex accepts the window. -/
def hasContextNearMatchB (searchText foundOtp : List Char) : Bool :=
  contextRegexTest (contextWindow searchText foundOtp)

/-- isHighConfidence (lines 418-420): not trivial, and sender-whitelisted
or subject OTP-related or keyword context near the match. -/
def scoreCandidate (foundOtp fromAddress subject searchText : List Char)
    (wl : List (List Char)) : Bool :=
  !(isTrivialOTP foundOtp) &&
    (senderWhitelistedB wl fromAddress || isOtpRelatedB subject ||
      hasContextNearMatchB searchText foundOtp)

/-! ## Mailbox session lifecycle (src/server/otp-email.ts lines 229-468)

One account attempt after client.connect() succeeded (line 230).  The
fallible operations are oracle inputs: getMailboxLock (line 236) may
throw, client.search (lines 264/278) may throw, each loop iteration may
skip, accept or throw, and the success-branch database update and log
(lines 424-430) may throw.  The close operations lock.release() and
client.logout() are modelled as non-throwing. -/

/-- Session lifecycle events, in program order. -/
inductive SessEvent where
  | lockAcquire
  | lockRelease
  | logout
deriving DecidableEq, Repr

/-- What one attempt does next in the account loop. -/
inductive AttemptOutcomeK where
  | success (otp : String)
  | continueNext
  | errorLogged
deriving DecidableEq, Repr

/-- Oracle for the fallible operations of one attempt. -/
structure AttemptOracle where
  lockOk : Bool
  searchResult : Option (List Nat)
  msgStep : Nat → MsgStep
  successOpsOk : Bool

/-- The candidate, if any, on which the for-of loop of lines 302-451
reaches the success branch; none when the loop falls through, or a thrown
iteration is swallowed by the catch on line 452. -/
def scanMsgs (step : Nat → MsgStep) : List Nat → Option String
  | [] => none
  | uid :: rest =>
    match step uid with
    | .skip => scanMsgs step rest
    | .accept otp => some otp
    | .err => none

/-- One account attempt after a successful connect, returning the session
events in order and the loop outcome.  Branches, in source order:
getMailboxLock throws (catch line 463: lock is undefined, logout only);
search throws (catch line 463: release then logout); empty search result
(lines 284-288: release, logout, continue); accepted candidate with the
success operations succeeding (lines 424-443: release, logout, return) or
throwing (swallowed at line 452, then release and logout at lines 461-462);
loop fallthrough (lines 461-462: release, logout). -/
def runAttempt (o : AttemptOracle) : List SessEvent × AttemptOutcomeK :=
  if o.lockOk then
    match o.searchResult with
    | none =>
      ([.lockAcquire, .lockRelease, .logout], .errorLogged)
    | some msgs =>
      if msgs.isEmpty then
        ([.lockAcquire, .lockRelease, .logout], .continueNext)
      else
        match scanMsgs o.msgStep msgs.reverse with
        | some otp =>
          if o.successOpsOk then
            ([.lockAcquire, .lockRelease, .logout], .success otp)
          else
            ([.lockAcquire, .lockRelease, .logout], .continueNext)
        | none =>
          ([.lockAcquire, .lockRelease, .logout], .continueNext)
  else
    ([.logout], .errorLogged)

/-! ## The POST /get-otp/:slug handler (src/server/otp-email.ts lines 109-489) -/

/-- One otp_logs row as inserted by logOTP (lines 36-44). -/
structure LogEntry where
  user_id : String
  product_id : String
  account_id : Option String
  status : String
  detail : Option String
deriving DecidableEq, Repr

/-- logOTP (lines 36-44). -/
def logOTP (userId productId : String) (accountId : Option String)
    (status : String) (detail : Option String) : LogEntry :=
  ⟨userId, productId, accountId, status, detail⟩

/-- An account row, reduced to the id the handler writes into logs and
the last_used_at update. -/
structure Account where
  id : String
deriving DecidableEq, Repr

/-- Abstract per-account attempt result at the granularity the handler
loop observes: the success return (lines 422-443); a clean attempt that
accepts nothing (continue with no log entry); an IMAP-level error (inner
catch line 463, logs status error with an IMAP detail); a connection or
decrypt error (outer catch line 469, logs status error with a connection
detail). -/
inductive AccountResult where
  | success (otp : String)
  | noCandidate
  | imapError (msg : String)
  | connError (msg : String)
deriving DecidableEq, Repr

/-- Whether an attempt result is the success return. -/
def AccountResult.isSuccess : AccountResult → Bool
  | .success _ => true
  | _ => false

/-- Observable effects of the account loop (lines 202-479): log entries in
order, account ids entered in order, accounts whose last_used_at was
updated, and the success payload when the loop returned. -/
structure LoopOut where
  logs : List LogEntry
  attempted : List String
  updates : List String
  successOut : Option (String × String)
deriving DecidableEq, Repr

/-- The for-account loop (lines 202-479): success updates last_used_at
(lines 424-427), logs success (line 429) and returns; a candidate-free
attempt continues silently; either error catch logs status error and
continues. -/
def runAccounts (userId productId : String) :
    List (Account × AccountResult) → LoopOut
  | [] => ⟨[], [], [], none⟩
  | (a, r) :: rest =>
    match r with
    | .success otp =>
      ⟨[logOTP userId productId (some a.id) "success" (some "OTP extracted")],
        [a.id], [a.id], some (otp, a.id)⟩
    | .noCandidate =>
      let o := runAccounts userId productId rest
      ⟨o.logs, a.id :: o.attempted, o.updates, o.successOut⟩
    | .imapError m =>
      let o := runAccounts userId productId rest
      ⟨logOTP userId productId (some a.id) "error" (some ("IMAP error: " ++ m)) ::
          o.logs, a.id :: o.attempted, o.updates, o.successOut⟩
    | .connError m =>
      let o := runAccounts userId productId rest
      ⟨logOTP userId productId (some a.id) "error"
          (some ("Connection error: " ++ m)) :: o.logs,
        a.id :: o.attempted, o.updates, o.successOut⟩

/-- Environment of one email-OTP request: the rate-limit store and clock,
and the oracle results of the database lookups and account attempts.
product is the id of the row returned by the slug lookup over active
products (lines 122-127), none when that lookup errors or finds nothing;
hasAccess mirrors lines 134-139; accessExpired mirrors line 146. -/
structure OtpEnv where
  userId : String
  slug : String
  store : RateStore
  now : Nat
  product : Option String
  hasAccess : Bool
  accessExpired : Bool
  accounts : List (Account × AccountResult)

/-- Observable result of one request to POST /get-otp/:slug. -/
structure HandlerOut where
  status : Nat
  errorCode : Option String
  otp : Option String
  logs : List LogEntry
  attempted : List String
  updates : List String
deriving DecidableEq, Repr

/-- The POST /get-otp/:slug handler (lines 109-489).  In source order:
rate limit check (lines 116-119, logs rate_limited and returns 429);
product lookup (lines 122-131, returns 404 product_not_found with no log);
access lookup (lines 134-143, returns 403 no_access with no log); expiry
check (lines 146-148, returns 403 access_expired with no log); empty
account list (lines 192-196, logs no_accounts and returns 404); the
account loop; then either the success response (lines 435-443) or the
terminal otp_not_found log and 404 (lines 482-483). -/
def getOtpHandler (env : OtpEnv) : HandlerOut :=
  let rl := checkRateLimit env.store env.userId env.slug env.now
  if rl.1 = false then
    ⟨429, some "rate_limited", none,
      [logOTP env.userId env.slug none "rate_limited" (some "Rate limit exceeded")],
      [], []⟩
  else
    match env.product with
    | none => ⟨404, some "product_not_found", none, [], [], []⟩
    | some pid =>
      if env.hasAccess = false then
        ⟨403, some "no_access", none, [], [], []⟩
      else if env.accessExpired then
        ⟨403, some "access_expired", none, [], [], []⟩
      else if env.accounts.isEmpty then
        ⟨404, some "no_accounts", none,
          [logOTP env.userId pid none "no_accounts"
            (some "No active accounts configured")], [], []⟩
      else
        let o := runAccounts env.userId pid env.accounts
        match o.successOut with
        | some (otp, _) => ⟨200, none, some otp, o.logs, o.attempted, o.updates⟩
        | none =>
          ⟨404, some "otp_not_found", none,
            o.logs ++ [logOTP env.userId pid none "otp_not_found"
              (some "No OTP found in configured accounts")],
            o.attempted, o.updates⟩

/-- The terminal status of a response: the error code, or success when the
response carries an OTP. -/
def terminalOf (out : HandlerOut) : String :=
  out.errorCode.getD "success"

/-- How many log entries carry a given status. -/
def countStatus (logs : List LogEntry) (s : String) : Nat :=
  (logs.filter (fun l => l.status = s)).length

/-! ### Rate limiter lemmas -/

theorem storeSet_same (s : RateStore) (key : String) (e : RateEntry) :
    storeSet s key e key = some e := by
  simp [storeSet]

theorem runCalls_bound (u p : String) (ts : List Nat) :
    ∀ (s : RateStore) (c r : Nat),
      s (rlKey u p) = some ⟨c, r⟩ → (∀ t ∈ ts, t ≤ r) →
      (runCalls u p s ts).1 ≤ RATE_LIMIT - c := by
  induction ts with
  | nil => intro s c r _ _; simp [runCalls]
  | cons t ts ih =>
    intro s c r hkey hts
    have ht : t ≤ r := hts t (List.mem_cons_self t ts)
    have hts' : ∀ x ∈ ts, x ≤ r := fun x hx => hts x (List.mem_cons_of_mem t hx)
    simp only [runCalls, checkRateLimit, hkey]
    have hnotreset : ¬ (RateEntry.resetTime ⟨c, r⟩ < t) := by
      simp only [not_lt]; exact ht
    by_cases hc : RATE_LIMIT ≤ c
    · simp only [hnotreset, if_false, hc, if_true]
      have h0 : RATE_LIMIT - c = 0 := Nat.sub_eq_zero_of_le hc
      have := ih s c r hkey hts'
      simpa [h0] using this
    · simp only [hnotreset, if_false, hc, if_true]
      have hkey' : storeSet s (rlKey u p) ⟨c + 1, r⟩ (rlKey u p) =
          some ⟨c + 1, r⟩ := storeSet_same ..
      have hrec := ih (storeSet s (rlKey u p) ⟨c + 1, r⟩) (c + 1) r hkey' hts'
      have hlt : c < RATE_LIMIT := Nat.lt_of_not_le hc
      omega

theorem runCalls_window_bound (s : RateStore) (u p : String) (t0 : Nat)
    (ts : List Nat) (hnone : s (rlKey u p) = none)
    (hts : ∀ t ∈ ts, t ≤ t0 + RATE_WINDOW) :
    (runCalls u p s (t0 :: ts)).1 ≤ RATE_LIMIT := by
  simp only [runCalls, checkRateLimit, hnone, if_true]
  have hkey : storeSet s (rlKey u p) ⟨1, t0 + RATE_WINDOW⟩ (rlKey u p) =
      some ⟨1, t0 + RATE_WINDOW⟩ := storeSet_same ..
  have := runCalls_bound u p ts (storeSet s (rlKey u p) ⟨1, t0 + RATE_WINDOW⟩)
    1 (t0 + RATE_WINDOW) hkey hts
  have hpos : 1 ≤ RATE_LIMIT := by decide
  omega

theorem runMixed_eq_runCalls (u slug : String) (L : List (Endpoint × Nat)) :
    ∀ s : RateStore, runMixed u slug s L = (runCalls u slug s (L.map (·.2))).1 := by
  induction L with
  | nil => intro s; simp [runMixed, runCalls]
  | cons et rest ih =>
    intro s
    obtain ⟨e, t⟩ := et
    cases e <;>
      simp [runMixed, runCalls, emailRateCheck, totpRateCheck, ih]

/-! ## Claim theorems -/

/-- C3: for every (user, product) key, among any first call and subsequent
calls within its rate-limit window at most RATE_LIMIT checkRateLimit calls
return allowed; a denied call leaves the store unchanged (count and
resetTime of the entry untouched); and a denied request is terminated by
the handler with status 429 and a single rate_limited outcome before any
account is attempted. -/
theorem rate_limiter_window_invariants :
    (∀ (s : RateStore) (u p : String) (t0 : Nat) (ts : List Nat),
      s (rlKey u p) = none → (∀ t ∈ ts, t ≤ t0 + RATE_WINDOW) →
      (runCalls u p s (t0 :: ts)).1 ≤ RATE_LIMIT)
    ∧ (∀ (s : RateStore) (u p : String) (now : Nat),
      (checkRateLimit s u p now).1 = false → (checkRateLimit s u p now).2 = s)
    ∧ (∀ env : OtpEnv,
      (checkRateLimit env.store env.userId env.slug env.now).1 = false →
      (getOtpHandler env).status = 429 ∧
      (getOtpHandler env).errorCode = some "rate_limited" ∧
      (getOtpHandler env).attempted = [] ∧
      countStatus (getOtpHandler env).logs "rate_limited" = 1) := by
  refine ⟨runCalls_window_bound, ?_, ?_⟩
  · intro s u p now h
    simp only [checkRateLimit] at h ⊢
    cases hk : s (rlKey u p) with
    | none => simp [hk] at h
    | some e =>
      simp only [hk] at h ⊢
      by_cases h1 : e.resetTime < now
      · simp [h1] at h
      · by_cases h2 : RATE_LIMIT ≤ e.count
        · simp [h1, h2]
        · simp [h1, h2] at h
  · intro env h
    simp [getOtpHandler, h, terminalOf, countStatus, logOTP]

/-- Witness for C3 at concrete inputs: eleven in-window calls admit at most
ten; a denied call on a saturated entry keeps the store; a denied request
answers 429. -/
theorem rate_limiter_window_invariants_witness :
    (runCalls "u" "prod" (fun _ => none) (0 :: List.replicate 10 500)).1 ≤ RATE_LIMIT
    ∧ (checkRateLimit (fun _ => some ⟨10, 1000⟩) "u" "prod" 500).2 =
        (fun _ => some ⟨10, 1000⟩)
    ∧ (getOtpHandler ⟨"u", "prod", fun _ => some ⟨10, 1000⟩, 500, none, false,
        false, []⟩).status = 429 :=
  ⟨rate_limiter_window_invariants.1 (fun _ => none) "u" "prod" 0
      (List.replicate 10 500) rfl (by decide),
    rate_limiter_window_invariants.2.1 (fun _ => some ⟨10, 1000⟩) "u" "prod" 500 rfl,
    (rate_limiter_window_invariants.2.2
      ⟨"u", "prod", fun _ => some ⟨10, 1000⟩, 500, none, false, false, []⟩ rfl).1⟩

/-- C10: the email endpoint and the TOTP endpoint share one rate-limit
counter keyed by userId:slug — any interleaving of requests to the two
endpoints for the same (user, slug) admits at most RATE_LIMIT requests
within one window, and the two endpoints' rate gates are the same function
of the shared store. -/
theorem shared_rate_limit_across_endpoints :
    (∀ (s : RateStore) (u slug : String) (L : List (Endpoint × Nat))
        (t0 : Nat) (ts : List Nat),
      L.map (·.2) = t0 :: ts →
      s (rlKey u slug) = none →
      (∀ t ∈ ts, t ≤ t0 + RATE_WINDOW) →
      runMixed u slug s L ≤ RATE_LIMIT)
    ∧ (∀ (s : RateStore) (u slug : String) (now : Nat),
      emailRateCheck s u slug now = totpRateCheck s u slug now) := by
  constructor
  · intro s u slug L t0 ts hmap hnone hts
    rw [runMixed_eq_runCalls, hmap]
    exact runCalls_window_bound s u slug t0 ts hnone hts
  · intro s u slug now
    rfl

/-- Witness for C10 at a concrete interleaving of the two endpoints. -/
theorem shared_rate_limit_across_endpoints_witness :
    runMixed "u" "acme" (fun _ => none)
        [(.email, 0), (.totp, 100), (.email, 200)] ≤ RATE_LIMIT
    ∧ emailRateCheck (fun _ => none) "u" "acme" 5 =
        totpRateCheck (fun _ => none) "u" "acme" 5 :=
  ⟨shared_rate_limit_across_endpoints.1 (fun _ => none) "u" "acme"
      [(.email, 0), (.totp, 100), (.email, 200)] 0 [100, 200] rfl rfl (by decide),
    shared_rate_limit_across_endpoints.2 (fun _ => none) "u" "acme" 5⟩

/-- C4: in every execution of one account attempt in which the IMAP
connect succeeded, the session is closed on every exit path: the mailbox
lock is released exactly as often as it was acquired, logout happens
exactly once, and the last session event is the logout. -/
theorem session_closed_on_all_paths (o : AttemptOracle) :
    (runAttempt o).1.count SessEvent.lockRelease =
        (runAttempt o).1.count SessEvent.lockAcquire
    ∧ (runAttempt o).1.count SessEvent.logout = 1
    ∧ (runAttempt o).1.getLast? = some SessEvent.logout := by
  have hev : (runAttempt o).1 =
      if o.lockOk then
        [SessEvent.lockAcquire, SessEvent.lockRelease, SessEvent.logout]
      else [SessEvent.logout] := by
    simp only [runAttempt]
    by_cases hl : o.lockOk
    · simp only [hl, if_true]
      cases hs : o.searchResult with
      | none => rfl
      | some msgs =>
        by_cases he : msgs.isEmpty
        · simp [he]
        · simp only [he, if_false]
          cases hscan : scanMsgs o.msgStep msgs.reverse with
          | none => rfl
          | some otp => by_cases hops : o.successOpsOk <;> simp [hops]
    · simp [hl]
  rw [hev]
  by_cases hl : o.lockOk
  · simp only [hl, if_true]
    decide
  · simp only [hl, if_false]
    decide

/-- C5 counterexample: with a mapping-level sender override a@x.com and an
account default filter b@y.com, the effective whitelist the code builds
contains both entries — the account default is still used, refuting that
the override alone is the effective filter. -/
theorem sender_override_merged_not_replacing :
    senderWhitelistOf (some "a@x.com".toList) (some "b@y.com".toList) =
        ["a@x.com".toList, "b@y.com".toList]
    ∧ senderWhitelistSpec (some "a@x.com".toList) (some "b@y.com".toList) =
        ["a@x.com".toList]
    ∧ senderWhitelistOf (some "a@x.com".toList) (some "b@y.com".toList) ≠
        senderWhitelistSpec (some "a@x.com".toList) (some "b@y.com".toList)
    ∧ "b@y.com".toList ∈
        senderWhitelistOf (some "a@x.com".toList) (some "b@y.com".toList) := by
  refine ⟨by decide, by decide, by decide, by decide⟩

/-- C5 amended: the effective sender whitelist is the concatenation of the
parsed mapping override and the parsed account default (each split on
commas, trimmed, empty entries dropped); the override is prepended to the
default, not substituted for it. -/
theorem sender_whitelist_is_concat
    (ovr fff : Option (List Char)) :
    senderWhitelistOf ovr fff =
      ((parseSenderEntries (ovr.getD [])).filter (fun x => !x.isEmpty)) ++
        ((parseSenderEntries (fff.getD [])).filter (fun x => !x.isEmpty)) := by
  have hempty : (parseSenderEntries []).filter (fun x => !x.isEmpty) = [] := by
    decide
  by_cases h1 : (ovr.getD []).isEmpty
  · have e1 : ovr.getD [] = [] := by
      cases hov : ovr.getD [] with
      | nil => rfl
      | cons c t => rw [hov] at h1; simp [List.isEmpty] at h1
    by_cases h2 : (fff.getD []).isEmpty
    · have e2 : fff.getD [] = [] := by
        cases hfv : fff.getD [] with
        | nil => rfl
        | cons c t => rw [hfv] at h2; simp [List.isEmpty] at h2
      simp [senderWhitelistOf, e1, e2, hempty]
    · simp [senderWhitelistOf, e1, h2, hempty]
  · by_cases h2 : (fff.getD []).isEmpty
    · have e2 : fff.getD [] = [] := by
        cases hfv : fff.getD [] with
        | nil => rfl
        | cons c t => rw [hfv] at h2; simp [List.isEmpty] at h2
      simp [senderWhitelistOf, h1, e2, hempty, List.filter_append]
    · simp [senderWhitelistOf, h1, h2, List.filter_append]

/-- C6: the confidence scorer accepts a candidate exactly when it is not
trivial (no run of six repeated digits and not in the fixed sequence
blacklist) and at least one of sender allow-list match, OTP-relevant
subject keyword, or OTP-relevance keyword in the ±60-character context
window holds; and the candidate 111111 is rejected under every sender,
subject, text and allow-list. -/
theorem scorer_acceptance_iff :
    (∀ (otp fromAddress subject searchText : List Char) (wl : List (List Char)),
      scoreCandidate otp fromAddress subject searchText wl = true ↔
        (¬ hasRepeatedDigitRun otp = true ∧
          ¬ (trivialSequences.map String.toList).contains otp = true ∧
          (senderWhitelistedB wl fromAddress = true ∨
            isOtpRelatedB subject = true ∨
            hasContextNearMatchB searchText otp = true)))
    ∧ (∀ (fromAddress subject searchText : List Char) (wl : List (List Char)),
      scoreCandidate "111111".toList fromAddress subject searchText wl = false) := by
  constructor
  · intro otp fromAddress subject searchText wl
    simp only [scoreCandidate, isTrivialOTP, Bool.and_eq_true, Bool.not_eq_true',
      Bool.or_eq_true, Bool.or_eq_false_iff, Bool.not_eq_true]
    tauto
  · intro fromAddress subject searchText wl
    have htriv : isTrivialOTP "111111".toList = true := by decide
    simp only [scoreCandidate, htriv, Bool.not_true, Bool.false_and]

/-- C7 counterexample: with the pattern set yielding, in order, the match
lists [999999], [], [], [4321] (a mail whose body holds a bare six-digit
number and a later PIN: 4321) and a subject that is not OTP-relevant, the
loop selects 999999 — the last match of the first matching pattern — while
recording every match of every pattern and taking the last overall would
record [999999, 4321] and select 4321. -/
theorem extractor_stops_at_first_pattern :
    extractLoopPick [["999999"], [], [], ["4321"]] false = some "999999"
    ∧ extractSpecPick [["999999"], [], [], ["4321"]] false = some "4321"
    ∧ extractLoopPick [["999999"], [], [], ["4321"]] false ≠
        extractSpecPick [["999999"], [], [], ["4321"]] false
    ∧ extractLoopRecorded [["999999"], [], [], ["4321"]] = ["999999"]
    ∧ extractSpecRecorded [["999999"], [], [], ["4321"]] = ["999999", "4321"]
    ∧ extractLoopRecorded [["999999"], [], [], ["4321"]] ≠
        extractSpecRecorded [["999999"], [], [], ["4321"]] := by
  refine ⟨by decide, by decide, by decide, by decide, by decide, by decide⟩

/-- C7 amended: the extractor runs the patterns in order only until the
first pattern with at least one match; the candidates recorded are exactly
that pattern's matches, and the selected candidate is its first match when
the subject is OTP-relevant and its last match otherwise.  When the
subject is OTP-relevant the selection coincides with the first candidate
over all patterns (so the first-preference half of the claim holds as
stated). -/
theorem extractor_first_pattern_selection (pats : List (List String)) (rel : Bool) :
    extractLoopPick pats rel =
        (pats.find? (fun l => !l.isEmpty)).bind
          (fun l => if rel then l.head? else l.getLast?)
    ∧ extractLoopRecorded pats = (pats.find? (fun l => !l.isEmpty)).getD []
    ∧ extractLoopPick pats true = (extractSpecRecorded pats).head? := by
  induction pats with
  | nil => refine ⟨rfl, rfl, rfl⟩
  | cons p rest ih =>
    cases p with
    | nil =>
      simpa [extractLoopPick, extractLoopRecorded, extractSpecRecorded,
        List.find?] using ih
    | cons m ms =>
      refine ⟨?_, ?_, ?_⟩
      · cases rel with
        | true => simp [extractLoopPick, List.find?]
        | false =>
          have hg : (m :: ms).getLast? =
              some ((m :: ms).getLast (List.cons_ne_nil m ms)) :=
            List.getLast?_eq_getLast (m :: ms) (List.cons_ne_nil m ms)
          simp [extractLoopPick, List.find?, hg]
      · simp [extractLoopRecorded, List.find?]
      · simp [extractLoopPick, extractSpecRecorded]

/-- C2 counterexample: with a search result of 21 message ids and no
accepted candidate, the fetch pass fetches all 21 messages, exceeding the
default fetch cap EMAIL_FETCH_LIMIT = 20, which the loop never applies. -/
theorem fetch_cap_not_applied :
    (emailFetchRun (fun _ => MsgStep.skip) (List.range 21)).length = 21
    ∧ EMAIL_FETCH_LIMIT = 20
    ∧ ¬ ((emailFetchRun (fun _ => MsgStep.skip) (List.range 21)).length ≤
        EMAIL_FETCH_LIMIT) := by
  refine ⟨by decide, rfl, by decide⟩

/-- C2 amended: the fetch pass processes the search result most-recent
first — it walks a prefix of the reversed id list, and on an ascending
(oldest-to-newest) search result the fetched ids are descending — but no
fetch cap is applied: when no message is accepted and none throws, every
id the search returned is fetched. -/
theorem fetch_loop_reverse_no_cap (eval : Nat → MsgStep) (msgs : List Nat) :
    (∃ n, emailFetchRun eval msgs = msgs.reverse.take n)
    ∧ ((∀ u, eval u = MsgStep.skip) → emailFetchRun eval msgs = msgs.reverse)
    ∧ (msgs.Pairwise (· ≤ ·) →
        (emailFetchRun eval msgs).Pairwise (fun a b => b ≤ a)) := by
  have htake : ∀ l : List Nat, ∃ n, fetchLoop eval l = l.take n := by
    intro l
    induction l with
    | nil => exact ⟨0, rfl⟩
    | cons uid rest ih =>
      cases hstep : eval uid with
      | skip =>
        obtain ⟨n, hn⟩ := ih
        exact ⟨n + 1, by simp [fetchLoop, hstep, hn]⟩
      | accept otp => exact ⟨1, by simp [fetchLoop, hstep]⟩
      | err => exact ⟨1, by simp [fetchLoop, hstep]⟩
  have hall : (∀ u, eval u = MsgStep.skip) → ∀ l : List Nat, fetchLoop eval l = l := by
    intro hskip l
    induction l with
    | nil => rfl
    | cons uid rest ih => simp [fetchLoop, hskip uid, ih]
  refine ⟨htake msgs.reverse, fun hskip => hall hskip msgs.reverse, ?_⟩
  intro hsorted
  obtain ⟨n, hn⟩ := htake msgs.reverse
  have hrev : msgs.reverse.Pairwise (fun a b => b ≤ a) := by
    rw [List.pairwise_reverse]
    exact hsorted
  have hsub : List.Sublist (msgs.reverse.take n) msgs.reverse :=
    List.take_sublist n msgs.reverse
  have := hrev.sublist hsub
  simpa [emailFetchRun, hn] using this

/-- Witness for C2 amended at a concrete ascending search result. -/
theorem fetch_loop_reverse_no_cap_witness :
    emailFetchRun (fun _ => MsgStep.skip) [1, 2, 3] = [3, 2, 1]
    ∧ (emailFetchRun (fun _ => MsgStep.skip) [1, 2, 3]).Pairwise
        (fun a b => b ≤ a) :=
  ⟨((fetch_loop_reverse_no_cap (fun _ => MsgStep.skip) [1, 2, 3]).2.1
      (fun _ => rfl)).trans (by decide),
    (fetch_loop_reverse_no_cap (fun _ => MsgStep.skip) [1, 2, 3]).2.2 (by decide)⟩

theorem countStatus_append (l1 l2 : List LogEntry) (s : String) :
    countStatus (l1 ++ l2) s = countStatus l1 s + countStatus l2 s := by
  simp [countStatus, List.filter_append]

theorem countStatus_singleton (e : LogEntry) (s : String) :
    countStatus [e] s = if e.status = s then 1 else 0 := by
  by_cases h : e.status = s <;> simp [countStatus, h]

theorem runAccounts_success_count (u p : String)
    (rs : List (Account × AccountResult)) :
    countStatus (runAccounts u p rs).logs "success" =
      if (runAccounts u p rs).successOut.isSome then 1 else 0 := by
  induction rs with
  | nil => simp [runAccounts, countStatus]
  | cons ar rest ih =>
    obtain ⟨a, r⟩ := ar
    cases r with
    | success otp => simp [runAccounts, countStatus, logOTP]
    | noCandidate => simpa [runAccounts] using ih
    | imapError m => simpa [runAccounts, countStatus, logOTP] using ih
    | connError m => simpa [runAccounts, countStatus, logOTP] using ih

theorem runAccounts_no_onf (u p : String)
    (rs : List (Account × AccountResult)) :
    countStatus (runAccounts u p rs).logs "otp_not_found" = 0 := by
  induction rs with
  | nil => simp [runAccounts, countStatus]
  | cons ar rest ih =>
    obtain ⟨a, r⟩ := ar
    cases r with
    | success otp => simp [runAccounts, countStatus, logOTP]
    | noCandidate => simpa [runAccounts] using ih
    | imapError m => simpa [runAccounts, countStatus, logOTP] using ih
    | connError m => simpa [runAccounts, countStatus, logOTP] using ih

/-- C1 counterexample: a request whose product lookup finds nothing reaches
the terminal product_not_found response with zero outcome records written,
not exactly one; the no_access and access_expired terminals are equally
unlogged. -/
theorem unlogged_terminal_outcomes :
    (terminalOf (getOtpHandler
          ⟨"u1", "acme", fun _ => none, 0, none, false, false, []⟩) =
        "product_not_found"
      ∧ (getOtpHandler
          ⟨"u1", "acme", fun _ => none, 0, none, false, false, []⟩).logs = [])
    ∧ (terminalOf (getOtpHandler
          ⟨"u1", "acme", fun _ => none, 0, some "pid", false, false, []⟩) =
        "no_access"
      ∧ (getOtpHandler
          ⟨"u1", "acme", fun _ => none, 0, some "pid", false, false, []⟩).logs = [])
    ∧ (terminalOf (getOtpHandler
          ⟨"u1", "acme", fun _ => none, 0, some "pid", true, true, []⟩) =
        "access_expired"
      ∧ (getOtpHandler
          ⟨"u1", "acme", fun _ => none, 0, some "pid", true, true, []⟩).logs = []) := by
  refine ⟨⟨by decide, by decide⟩, ⟨by decide, by decide⟩, by decide, by decide⟩

/-- C1 amended: every email-OTP request that reaches a terminal state of
kind rate_limited, no_accounts, otp_not_found or success writes exactly
one outcome record with that terminal status before the response, but the
terminal states product_not_found, no_access and access_expired write
none. -/
theorem email_terminal_outcome_log_count (env : OtpEnv) :
    countStatus (getOtpHandler env).logs (terminalOf (getOtpHandler env)) =
      if terminalOf (getOtpHandler env) ∈
          (["product_not_found", "no_access", "access_expired"] : List String)
      then 0 else 1 := by
  by_cases hrl : (checkRateLimit env.store env.userId env.slug env.now).1 = false
  · simp [getOtpHandler, hrl, terminalOf, countStatus, logOTP]
  · cases hp : env.product with
    | none => simp [getOtpHandler, hrl, hp, terminalOf, countStatus]
    | some pid =>
      by_cases hacc : env.hasAccess = false
      · simp [getOtpHandler, hrl, hp, hacc, terminalOf, countStatus]
      · by_cases hexp : env.accessExpired
        · simp [getOtpHandler, hrl, hp, hacc, hexp, terminalOf, countStatus]
        · by_cases hemp : env.accounts.isEmpty
          · simp [getOtpHandler, hrl, hp, hacc, hexp, hemp, terminalOf,
              countStatus, logOTP]
          · cases hs : (runAccounts env.userId pid env.accounts).successOut with
            | some res =>
              obtain ⟨otp, aid⟩ := res
              have hc := runAccounts_success_count env.userId pid env.accounts
              rw [hs] at hc
              simp only [Option.isSome_some, if_true] at hc
              simp [getOtpHandler, hrl, hp, hacc, hexp, hemp, hs, terminalOf, hc]
            | none =>
              have h1 := runAccounts_no_onf env.userId pid env.accounts
              simp [getOtpHandler, hrl, hp, hacc, hexp, hemp, hs, terminalOf,
                countStatus_append, h1, countStatus_singleton, logOTP]

/-- C9: every email-OTP request writes at most one outcome record with
status success (exactly one when the response carries an OTP, none
otherwise); and when the account loop reaches an account whose attempt
succeeds, iteration stops there — the accounts after it are not attempted,
the loop result is that account's candidate, and only that account's
last_used_at is updated. -/
theorem single_success_stops_iteration :
    (∀ env : OtpEnv,
      countStatus (getOtpHandler env).logs "success" =
        if (getOtpHandler env).otp.isSome then 1 else 0)
    ∧ (∀ (u p : String) (pre : List (Account × AccountResult)) (a : Account)
        (otp : String) (rest : List (Account × AccountResult)),
      (∀ x ∈ pre, x.2.isSuccess = false) →
      (runAccounts u p (pre ++ (a, AccountResult.success otp) :: rest)).attempted =
          pre.map (fun x => x.1.id) ++ [a.id]
        ∧ (runAccounts u p
            (pre ++ (a, AccountResult.success otp) :: rest)).updates = [a.id]
        ∧ (runAccounts u p
            (pre ++ (a, AccountResult.success otp) :: rest)).successOut =
              some (otp, a.id)) := by
  constructor
  · intro env
    by_cases hrl : (checkRateLimit env.store env.userId env.slug env.now).1 = false
    · simp [getOtpHandler, hrl, countStatus, logOTP]
    · cases hp : env.product with
      | none => simp [getOtpHandler, hrl, hp, countStatus]
      | some pid =>
        by_cases hacc : env.hasAccess = false
        · simp [getOtpHandler, hrl, hp, hacc, countStatus]
        · by_cases hexp : env.accessExpired
          · simp [getOtpHandler, hrl, hp, hacc, hexp, countStatus]
          · by_cases hemp : env.accounts.isEmpty
            · simp [getOtpHandler, hrl, hp, hacc, hexp, hemp, countStatus, logOTP]
            · cases hs : (runAccounts env.userId pid env.accounts).successOut with
              | some res =>
                obtain ⟨otp, aid⟩ := res
                have hc := runAccounts_success_count env.userId pid env.accounts
                rw [hs] at hc
                simp only [Option.isSome_some, if_true] at hc
                simp [getOtpHandler, hrl, hp, hacc, hexp, hemp, hs, hc]
              | none =>
                have hc := runAccounts_success_count env.userId pid env.accounts
                rw [hs] at hc
                have hc0 : countStatus
                    (runAccounts env.userId pid env.accounts).logs "success" = 0 := by
                  rw [hc]; rfl
                simp [getOtpHandler, hrl, hp, hacc, hexp, hemp, hs,
                  countStatus_append, hc0, countStatus_singleton, logOTP]
  · intro u p pre a otp rest
    induction pre with
    | nil =>
      intro _
      simp [runAccounts]
    | cons x pre' ih =>
      intro hpre
      obtain ⟨b, r⟩ := x
      have hr : r.isSuccess = false := hpre (b, r) (by simp)
      have hpre' : ∀ y ∈ pre', y.2.isSuccess = false :=
        fun y hy => hpre y (by simp [hy])
      obtain ⟨h1, h2, h3⟩ := ih hpre'
      cases r with
      | success o => simp [AccountResult.isSuccess] at hr
      | noCandidate => simp [runAccounts, h1, h2, h3]
      | imapError m => simp [runAccounts, h1, h2, h3]
      | connError m => simp [runAccounts, h1, h2, h3]

/-- Witness for C9: a concrete loop with one failing account before the
successful one and one account after it updates only the successful
account's last_used_at. -/
theorem single_success_stops_iteration_witness :
    (runAccounts "u7" "p7"
        ([(⟨"acc0"⟩, AccountResult.noCandidate)] ++
          (⟨"acc1"⟩, AccountResult.success "739201") ::
            [(⟨"acc2"⟩, AccountResult.success "000000")])).updates = ["acc1"] :=
  (single_success_stops_iteration.2 "u7" "p7"
      [(⟨"acc0"⟩, AccountResult.noCandidate)] ⟨"acc1"⟩ "739201"
      [(⟨"acc2"⟩, AccountResult.success "000000")] (by decide)).2.1

end ByteVault
